import Mathlib

/-!
Verification of the backtest simulation engine of the binance-trading-bot
repository against its natural-language specification.

The definitions below are a shallow embedding of the TypeScript source:
  * `src/backend/src/services/backtestService.ts` — the execution simulator
    (`executeBacktest`), grid-search optimizer (`optimizeParameters`) and the
    risk-metric extensions (`calculateVaR`, `calculateExpectedShortfall`);
  * `src/backend/src/strategies/baseStrategy.ts` — the performance analyzer
    (`calculatePerformanceMetrics`): streak scanning and the Sortino block;
  * `src/backend/src/routes/backtestRoutes.ts` — config defaulting (`||`
    chains) and the `/run` handler's bound validation.

JavaScript numbers are modelled as exact rationals (`ℚ`); `Math.sqrt` is
modelled as `Real.sqrt` over `ℝ`.  Division by zero yields the junk value `0`
in `ℚ` where JavaScript would produce `NaN`/`Infinity`; no theorem below
depends on such a junk case except where explicitly noted.
-/

namespace BinanceBot

/-- Candle shape of `historicalDataService.HistoricalCandle`
    {openTime, open, high, low, close, volume, closeTime}.
    The field `open` is renamed `open_` because `open` is a Lean keyword. -/
structure HistoricalCandle where
  openTime : ℚ
  open_ : ℚ
  high : ℚ
  low : ℚ
  close : ℚ
  volume : ℚ
  closeTime : ℚ
deriving DecidableEq

/-- Signal action of `StrategySignal.action` in `baseStrategy.ts`. -/
inductive SignalAction where
  | BUY
  | SELL
  | HOLD
deriving DecidableEq

/-- Exit reason of `Trade.exitReason` in `baseStrategy.ts`. -/
inductive ExitReason where
  | SIGNAL
  | STOP_LOSS
  | TAKE_PROFIT
  | END_OF_DATA
deriving DecidableEq

/-- The `StrategySignal` interface of `baseStrategy.ts`. -/
structure StrategySignal where
  action : SignalAction
  confidence : ℚ
  reason : String
  price : ℚ
  timestamp : ℚ
deriving DecidableEq

/-- The `Trade` interface of `baseStrategy.ts` (the 15-field version that the
    backtest service populates). -/
structure Trade where
  entryTime : ℚ
  exitTime : ℚ
  entryPrice : ℚ
  exitPrice : ℚ
  type : SignalAction
  quantity : ℚ
  pnl : ℚ
  pnlPercentage : ℚ
  entryFees : ℚ
  exitFees : ℚ
  entrySlippage : ℚ
  exitSlippage : ℚ
  netPnl : ℚ
  netPnlPercentage : ℚ
  exitReason : ExitReason
deriving DecidableEq

/-- The `BacktestConfig` interface of `baseStrategy.ts`. -/
structure BacktestConfig where
  initialBalance : ℚ
  positionSize : ℚ
  stopLoss : ℚ
  takeProfit : ℚ
  maxPositions : ℚ
  slippage : ℚ
  tradingFees : ℚ
  makerFees : ℚ
  takerFees : ℚ
  useMakerFees : Bool
deriving DecidableEq

/-- Mutable locals of `BacktestService.executeBacktest`: the accumulated trade
    list, the optional open position (`currentPosition`), and the running
    balance.  `currentPosition : Trade | null` is an `Option Trade`. -/
structure SimState where
  trades : List Trade
  position : Option Trade
  balance : ℚ
deriving DecidableEq

/-- Source `BacktestService.calculateFees`. -/
def calculateFees (amount : ℚ) (config : BacktestConfig) : ℚ :=
  let feeRate := if config.useMakerFees then config.makerFees else config.takerFees
  amount * (feeRate / 100)

/-- Source `BacktestService.calculateSlippage`. -/
def calculateSlippage (price : ℚ) (config : BacktestConfig) : ℚ :=
  price * (config.slippage / 100)

/-- Source `BacktestService.applySlippage` (buy fills higher, sell fills lower). -/
def applySlippage (price : ℚ) (isBuy : Bool) (config : BacktestConfig) : ℚ :=
  let slippageAmount := calculateSlippage price config
  if isBuy then price + slippageAmount else price - slippageAmount

/-- Position opened by the BUY branch of `executeBacktest` (lines 203–239).
    The source also binds an unused local `quantity = positionSize /
    entryPriceWithSlippage`; only `actualQuantity` flows into the position. -/
def openPosition (config : BacktestConfig) (currentCandle : HistoricalCandle)
    (st : SimState) : SimState :=
  let positionSize := st.balance * (config.positionSize / 100)
  let entryPriceWithSlippage := applySlippage currentCandle.close true config
  let entryFees := calculateFees positionSize config
  let actualPositionSize := positionSize - entryFees
  let actualQuantity := actualPositionSize / entryPriceWithSlippage
  { st with position := some {
      entryTime := currentCandle.openTime
      exitTime := 0
      entryPrice := currentCandle.close
      exitPrice := 0
      type := SignalAction.BUY
      quantity := actualQuantity
      pnl := 0
      pnlPercentage := 0
      entryFees := entryFees
      exitFees := 0
      entrySlippage := entryPriceWithSlippage - currentCandle.close
      exitSlippage := 0
      netPnl := 0
      netPnlPercentage := 0
      exitReason := ExitReason.SIGNAL } }

/-- Trade constructed by the SELL-signal close branch of `executeBacktest`
    (lines 240–278). -/
def closeBySignalTrade (config : BacktestConfig) (p : Trade)
    (currentCandle : HistoricalCandle) : Trade :=
  let exitPriceWithSlippage := applySlippage currentCandle.close false config
  let grossPnl := (exitPriceWithSlippage - p.entryPrice) * p.quantity
  let exitFees := calculateFees (exitPriceWithSlippage * p.quantity) config
  let netPnl := grossPnl - p.entryFees - exitFees
  let pnlPercentage := ((exitPriceWithSlippage - p.entryPrice) / p.entryPrice) * 100
  let netPnlPercentage := netPnl / (p.entryPrice * p.quantity) * 100
  { p with
      exitTime := currentCandle.openTime
      exitPrice := currentCandle.close
      pnl := grossPnl
      pnlPercentage := pnlPercentage
      exitFees := exitFees
      exitSlippage := currentCandle.close - exitPriceWithSlippage
      netPnl := netPnl
      netPnlPercentage := netPnlPercentage
      exitReason := ExitReason.SIGNAL }

/-- Trade constructed by the stop-loss branch of `executeBacktest`
    (lines 287–324); `pnlPercentage` is the unslipped `priceChange`. -/
def closeByStopLossTrade (config : BacktestConfig) (p : Trade)
    (currentCandle : HistoricalCandle) : Trade :=
  let currentPrice := currentCandle.close
  let priceChange := ((currentPrice - p.entryPrice) / p.entryPrice) * 100
  let exitPriceWithSlippage := applySlippage currentPrice false config
  let grossPnl := (exitPriceWithSlippage - p.entryPrice) * p.quantity
  let exitFees := calculateFees (exitPriceWithSlippage * p.quantity) config
  let netPnl := grossPnl - p.entryFees - exitFees
  let netPnlPercentage := netPnl / (p.entryPrice * p.quantity) * 100
  { p with
      exitTime := currentCandle.openTime
      exitPrice := currentPrice
      pnl := grossPnl
      pnlPercentage := priceChange
      exitFees := exitFees
      exitSlippage := currentPrice - exitPriceWithSlippage
      netPnl := netPnl
      netPnlPercentage := netPnlPercentage
      exitReason := ExitReason.STOP_LOSS }

/-- Trade constructed by the take-profit branch of `executeBacktest`
    (lines 326–363); identical to the stop-loss trade except the reason. -/
def closeByTakeProfitTrade (config : BacktestConfig) (p : Trade)
    (currentCandle : HistoricalCandle) : Trade :=
  let currentPrice := currentCandle.close
  let priceChange := ((currentPrice - p.entryPrice) / p.entryPrice) * 100
  let exitPriceWithSlippage := applySlippage currentPrice false config
  let grossPnl := (exitPriceWithSlippage - p.entryPrice) * p.quantity
  let exitFees := calculateFees (exitPriceWithSlippage * p.quantity) config
  let netPnl := grossPnl - p.entryFees - exitFees
  let netPnlPercentage := netPnl / (p.entryPrice * p.quantity) * 100
  { p with
      exitTime := currentCandle.openTime
      exitPrice := currentPrice
      pnl := grossPnl
      pnlPercentage := priceChange
      exitFees := exitFees
      exitSlippage := currentPrice - exitPriceWithSlippage
      netPnl := netPnl
      netPnlPercentage := netPnlPercentage
      exitReason := ExitReason.TAKE_PROFIT }

/-- Trade constructed by the end-of-data close of `executeBacktest`
    (lines 368–403). -/
def closeEndOfDataTrade (config : BacktestConfig) (p : Trade)
    (lastCandle : HistoricalCandle) : Trade :=
  let exitPriceWithSlippage := applySlippage lastCandle.close false config
  let grossPnl := (exitPriceWithSlippage - p.entryPrice) * p.quantity
  let exitFees := calculateFees (exitPriceWithSlippage * p.quantity) config
  let netPnl := grossPnl - p.entryFees - exitFees
  let pnlPercentage := ((exitPriceWithSlippage - p.entryPrice) / p.entryPrice) * 100
  let netPnlPercentage := netPnl / (p.entryPrice * p.quantity) * 100
  { p with
      exitTime := lastCandle.openTime
      exitPrice := lastCandle.close
      pnl := grossPnl
      pnlPercentage := pnlPercentage
      exitFees := exitFees
      exitSlippage := lastCandle.close - exitPriceWithSlippage
      netPnl := netPnl
      netPnlPercentage := netPnlPercentage
      exitReason := ExitReason.END_OF_DATA }

/-- Signal-handling block of `executeBacktest` (lines 202–279): a qualifying
    signal (non-HOLD with confidence at least 0.5) opens a position when flat
    and BUY, or closes the open position when SELL; anything else is a no-op. -/
def handleSignal (config : BacktestConfig) (currentCandle : HistoricalCandle)
    (signal : StrategySignal) (st : SimState) : SimState :=
  if signal.action ≠ SignalAction.HOLD ∧ signal.confidence ≥ 0.5 then
    match st.position, signal.action with
    | none, SignalAction.BUY => openPosition config currentCandle st
    | some p, SignalAction.SELL =>
        let trade := closeBySignalTrade config p currentCandle
        { trades := st.trades ++ [trade], position := none
          balance := st.balance + trade.netPnl }
    | _, _ => st
  else st

/-- Stop-loss / take-profit block of `executeBacktest` (lines 281–364),
    evaluated on every candle while a position is open.  The threshold test
    uses the unslipped `priceChange`; the fills use the slipped close. -/
def checkStopLossTakeProfit (config : BacktestConfig)
    (currentCandle : HistoricalCandle) (st : SimState) : SimState :=
  match st.position with
  | none => st
  | some p =>
      let currentPrice := currentCandle.close
      let priceChange := ((currentPrice - p.entryPrice) / p.entryPrice) * 100
      if priceChange ≤ -config.stopLoss then
        let trade := closeByStopLossTrade config p currentCandle
        { trades := st.trades ++ [trade], position := none
          balance := st.balance + trade.netPnl }
      else if priceChange ≥ config.takeProfit then
        let trade := closeByTakeProfitTrade config p currentCandle
        { trades := st.trades ++ [trade], position := none
          balance := st.balance + trade.netPnl }
      else st

/-- One iteration of the per-candle loop of `executeBacktest`: handle the
    strategy signal, then check stop-loss/take-profit on the (possibly just
    updated) position. -/
def stepCandle (config : BacktestConfig) (currentCandle : HistoricalCandle)
    (signal : StrategySignal) (st : SimState) : SimState :=
  checkStopLossTakeProfit config currentCandle
    (handleSignal config currentCandle signal st)

/-- A strategy as the simulator consumes it: its minimum window
    (`getRequiredCandles`) and its signal function.  The source signature
    `analyzeSignal(historicalCandles, indicators)` receives indicators that
    are themselves a pure function of `historicalCandles`
    (`indicatorService.analyzePriceWithIndicators`), so the composite is a
    function of the candle window alone. -/
structure Strategy where
  requiredCandles : ℕ
  analyzeSignal : List HistoricalCandle → StrategySignal

/-- The per-candle loop of `executeBacktest` (lines 188–365):
    `processed` is `candles.slice(0, i)` and the head of the remaining list is
    `candles[i]`; the window passed to the strategy is `candles.slice(0, i+1)`. -/
def runCandles (config : BacktestConfig) (strategy : Strategy)
    (processed : List HistoricalCandle) :
    List HistoricalCandle → SimState → SimState
  | [], st => st
  | c :: rest, st =>
      let historicalCandles := processed ++ [c]
      let signal := strategy.analyzeSignal historicalCandles
      runCandles config strategy historicalCandles rest
        (stepCandle config c signal st)

/-- State after the per-candle loop of `executeBacktest`, starting from an
    empty trade list, no position, and `balance = config.initialBalance`;
    the loop index starts at `strategy.getRequiredCandles()`. -/
def loopState (config : BacktestConfig) (strategy : Strategy)
    (candles : List HistoricalCandle) : SimState :=
  runCandles config strategy (candles.take strategy.requiredCandles)
    (candles.drop strategy.requiredCandles)
    { trades := [], position := none, balance := config.initialBalance }

/-- End-of-data close of `executeBacktest` (lines 367–403): a position still
    open after the loop is force-closed at the final candle
    (`candles[candles.length - 1]`).  The `getLast? = none` case cannot arise
    with an open position (a position is only ever opened inside the loop,
    which requires a candle); the source would crash there. -/
def finalizeRun (config : BacktestConfig) (candles : List HistoricalCandle)
    (st : SimState) : SimState :=
  match st.position with
  | none => st
  | some p =>
      match candles.getLast? with
      | none => st
      | some lastCandle =>
          let trade := closeEndOfDataTrade config p lastCandle
          { trades := st.trades ++ [trade], position := none
            balance := st.balance + trade.netPnl }

/-- Source `BacktestService.executeBacktest` (lines 172–420), returning the final
    simulator state; the returned `StrategyResult.trades` is `.trades` of this
    state.  (The signal log and the final `calculatePerformanceMetrics` call
    are independent of the trading state and are modelled separately.) -/
def executeBacktest (config : BacktestConfig) (strategy : Strategy)
    (candles : List HistoricalCandle) : SimState :=
  finalizeRun config candles (loopState config strategy candles)

/-!
### Route-level config defaulting and validation (`backtestRoutes.ts`)

Each POST handler (`/run`, `/optimize`, `/monte-carlo`, `/walk-forward`,
`/risk-metrics`, `/compare`) builds its `BacktestConfig` with the same
`config.field || default` chain.  A raw request field is an `Option`:
`none` models a missing (`undefined`) field.  JavaScript `||` treats `0`
(and `false`) as falsy, so an explicitly supplied `0` is replaced by the
default; any nonzero number — negative numbers included — is kept.
-/

/-- Raw (client-supplied) config object of the request body. -/
structure RawBacktestConfig where
  initialBalance : Option ℚ
  positionSize : Option ℚ
  stopLoss : Option ℚ
  takeProfit : Option ℚ
  maxPositions : Option ℚ
  slippage : Option ℚ
  tradingFees : Option ℚ
  makerFees : Option ℚ
  takerFees : Option ℚ
  useMakerFees : Option Bool
deriving DecidableEq

/-- JavaScript `v || d` for a numeric field: missing or `0` yields the
    default. -/
def orDefault (v : Option ℚ) (d : ℚ) : ℚ :=
  match v with
  | none => d
  | some x => if x = 0 then d else x

/-- JavaScript `v || d` for a boolean field: missing or `false` yields the
    default. -/
def orDefaultBool (v : Option Bool) (d : Bool) : Bool :=
  match v with
  | none => d
  | some b => b || d

/-- The `backtestConfig` defaulting block shared verbatim by all six POST
    handlers of `backtestRoutes.ts` (e.g. `/run` lines 90–101). -/
def normalizeConfig (config : RawBacktestConfig) : BacktestConfig :=
  { initialBalance := orDefault config.initialBalance 10000
    positionSize := orDefault config.positionSize 10
    stopLoss := orDefault config.stopLoss 2
    takeProfit := orDefault config.takeProfit 3
    maxPositions := orDefault config.maxPositions 1
    slippage := orDefault config.slippage 0.1
    tradingFees := orDefault config.tradingFees 0.1
    makerFees := orDefault config.makerFees 0.075
    takerFees := orDefault config.takerFees 0.1
    useMakerFees := orDefaultBool config.useMakerFees false }

/-- Validation errors returned by the `/run` handler (lines 104–123); the
    route responds with status 400 and the quoted message:
    `initialBalanceNotPositive` ↦ Initial balance must be greater than 0,
    `positionSizeOutOfRange` ↦ Position size must be between 0 and 100,
    `stopLossOrTakeProfitNotPositive` ↦ Stop loss and take profit must be
    greater than 0. -/
inductive RunConfigError where
  | initialBalanceNotPositive
  | positionSizeOutOfRange
  | stopLossOrTakeProfitNotPositive
deriving DecidableEq

/-- Bound checks of the `/run` handler, applied to the already-normalized
    config (lines 104–123).  Returns the first failing check, `none` when the
    config passes.  No other POST handler performs these checks. -/
def validateRunConfig (c : BacktestConfig) : Option RunConfigError :=
  if c.initialBalance ≤ 0 then some RunConfigError.initialBalanceNotPositive
  else if c.positionSize ≤ 0 ∨ c.positionSize > 100 then
    some RunConfigError.positionSizeOutOfRange
  else if c.stopLoss ≤ 0 ∨ c.takeProfit ≤ 0 then
    some RunConfigError.stopLossOrTakeProfitNotPositive
  else none

/-- Config processing of the `/run` handler: normalize, then bound-check. -/
def runHandlerValidation (raw : RawBacktestConfig) : Option RunConfigError :=
  validateRunConfig (normalizeConfig raw)

/-- Config processing of the `/run` handler (lines 90–101). -/
def runHandlerConfig (raw : RawBacktestConfig) : BacktestConfig :=
  normalizeConfig raw

/-- Config processing of the `/optimize` handler (lines 212–223): the same
    defaulting block, with no bound validation before calling
    `optimizeParameters`. -/
def optimizeHandlerConfig (raw : RawBacktestConfig) : BacktestConfig :=
  normalizeConfig raw

/-- Config processing of the `/monte-carlo` handler (lines 272–283): the same
    defaulting block, with no bound validation. -/
def monteCarloHandlerConfig (raw : RawBacktestConfig) : BacktestConfig :=
  normalizeConfig raw

/-- Config processing of the `/walk-forward` handler (lines 333–344): the same
    defaulting block, with no bound validation. -/
def walkForwardHandlerConfig (raw : RawBacktestConfig) : BacktestConfig :=
  normalizeConfig raw

/-- Config processing of the `/risk-metrics` handler (lines 392–403): the same
    defaulting block, with no bound validation. -/
def riskMetricsHandlerConfig (raw : RawBacktestConfig) : BacktestConfig :=
  normalizeConfig raw

/-- Config processing of the `/compare` handler (lines 469–480): the same
    defaulting block, with no bound validation. -/
def compareHandlerConfig (raw : RawBacktestConfig) : BacktestConfig :=
  normalizeConfig raw

/-!
### Performance-analyzer blocks (`baseStrategy.calculatePerformanceMetrics`)
-/

/-- The per-trade gross return percentages
    (`returns = trades.map(trade => trade.pnlPercentage)`, line 170). -/
def tradeReturns (trades : List Trade) : List ℚ :=
  trades.map (fun trade => trade.pnlPercentage)

/-- Source `averageReturn` (line 173): mean of the gross return percentages. -/
def averageReturnOf (trades : List Trade) : ℚ :=
  (tradeReturns trades).sum / ((tradeReturns trades).length : ℚ)

/-- Source `downsideReturns = returns.filter(ret => ret < 0)` (line 183). -/
def downsideReturnsOf (trades : List Trade) : List ℚ :=
  (tradeReturns trades).filter (fun ret => ret < 0)

/-- Source `downsideVariance` (lines 186–187): mean of the squares of the negative
    returns (deviation about zero, not about their mean), `0` when there are
    none. -/
def downsideVarianceOf (trades : List Trade) : ℚ :=
  if (downsideReturnsOf trades).length > 0 then
    ((downsideReturnsOf trades).map (fun ret => ret ^ 2)).sum /
      ((downsideReturnsOf trades).length : ℚ)
  else 0

/-- Source `sortinoRatio` (line 191): `averageReturn / Math.sqrt(downsideVariance)`
    when `downsideVariance > 0`, else `0`. -/
noncomputable def sortinoRatioOf (trades : List Trade) : ℝ :=
  if downsideVarianceOf trades > 0 then
    (averageReturnOf trades : ℝ) / Real.sqrt ((downsideVarianceOf trades : ℚ) : ℝ)
  else 0

/-- Mutable locals of the streak-scanning block (lines 199–228). -/
structure StreakState where
  maxConsecutiveWins : ℕ
  maxConsecutiveLosses : ℕ
  currentWins : ℕ
  currentLosses : ℕ
  consecutiveWins : List ℕ
  consecutiveLosses : List ℕ
deriving DecidableEq

/-- Body of `trades.forEach` in the streak block (lines 207–224):
    `netPnl > 0` extends the win streak and zeroes the loss counter;
    `netPnl < 0` records a pending win streak, zeroes the win counter and
    extends the loss streak; `netPnl === 0` matches neither branch and leaves
    the whole state unchanged. -/
def streakStep (st : StreakState) (netPnl : ℚ) : StreakState :=
  if netPnl > 0 then
    let currentWins := st.currentWins + 1
    { st with
        currentWins := currentWins
        currentLosses := 0
        maxConsecutiveWins :=
          if currentWins > st.maxConsecutiveWins then currentWins
          else st.maxConsecutiveWins }
  else if netPnl < 0 then
    let consecutiveWins :=
      if st.currentWins > 0 then st.consecutiveWins ++ [st.currentWins]
      else st.consecutiveWins
    let currentLosses := st.currentLosses + 1
    { st with
        consecutiveWins := consecutiveWins
        currentWins := 0
        currentLosses := currentLosses
        maxConsecutiveLosses :=
          if currentLosses > st.maxConsecutiveLosses then currentLosses
          else st.maxConsecutiveLosses }
  else st

/-- The full streak scan (lines 199–228), including the final pushes of the
    still-open streaks (lines 227–228). -/
def streakScan (trades : List Trade) : StreakState :=
  let st := trades.foldl (fun st trade => streakStep st trade.netPnl)
    { maxConsecutiveWins := 0, maxConsecutiveLosses := 0
      currentWins := 0, currentLosses := 0
      consecutiveWins := [], consecutiveLosses := [] }
  { st with
      consecutiveWins :=
        if st.currentWins > 0 then st.consecutiveWins ++ [st.currentWins]
        else st.consecutiveWins
      consecutiveLosses :=
        if st.currentLosses > 0 then st.consecutiveLosses ++ [st.currentLosses]
        else st.consecutiveLosses }

/-!
### Grid-search optimizer (`BacktestService.optimizeParameters`)

`runBacktest` performs network I/O (the historical-data fetch); the optimizer
is therefore embedded parametrically in an oracle
`runB : List ℚ → Option PerformanceMetrics` mapping a parameter combination to
the performance of its (fresh-balance) backtest, `none` when that run fails —
the optimizer only reads `result.data.performance` of successful runs.
Parameter combinations are the value lists of the Cartesian product, in the
order `generateCombinations` emits them. -/

/-- The `PerformanceMetrics` interface of `baseStrategy.ts` (all 28 fields);
    pure data as the optimizer consumes it. -/
structure PerformanceMetrics where
  totalReturn : ℚ
  totalReturnPercentage : ℚ
  winRate : ℚ
  totalTrades : ℚ
  winningTrades : ℚ
  losingTrades : ℚ
  averageWin : ℚ
  averageLoss : ℚ
  profitFactor : ℚ
  maxDrawdown : ℚ
  maxDrawdownPercentage : ℚ
  sharpeRatio : ℚ
  averageTradeDuration : ℚ
  totalFees : ℚ
  totalSlippage : ℚ
  netTotalReturn : ℚ
  netTotalReturnPercentage : ℚ
  netWinRate : ℚ
  netProfitFactor : ℚ
  netMaxDrawdown : ℚ
  netMaxDrawdownPercentage : ℚ
  netSharpeRatio : ℚ
  calmarRatio : ℚ
  sortinoRatio : ℚ
  maxConsecutiveLosses : ℚ
  maxConsecutiveWins : ℚ
  averageConsecutiveLosses : ℚ
  averageConsecutiveWins : ℚ
deriving DecidableEq

/-- Result shape of `optimizeParameters`. -/
structure OptimizationResult where
  bestParams : List ℚ
  bestPerformance : PerformanceMetrics
  allResults : List (List ℚ × PerformanceMetrics)
deriving DecidableEq

/-- Source `BacktestService.generateCombinations` (lines 746–755): Cartesian product
    of the parameter value ranges. -/
def generateCombinations : List (List ℚ) → List (List ℚ)
  | [] => [[]]
  | first :: rest =>
      let restCombinations := generateCombinations rest
      first.flatMap (fun value =>
        restCombinations.map (fun combination => value :: combination))

/-- Source `results.reduce(...)` of `optimizeParameters` (lines 518–520):
    JavaScript `reduce` without an initial value seeds the accumulator with
    the first element and keeps the current entry only when its
    `netSharpeRatio` is strictly greater. -/
def reduceBestResult (first : List ℚ × PerformanceMetrics)
    (rest : List (List ℚ × PerformanceMetrics)) : List ℚ × PerformanceMetrics :=
  rest.foldl (fun best current =>
    if current.2.netSharpeRatio > best.2.netSharpeRatio then current else best)
    first

/-- Source `BacktestService.optimizeParameters` (lines 481–527): run every
    combination, keep the successful ones (a failed run is logged and
    skipped), then select by `netSharpeRatio`.  JavaScript `reduce` throws on
    an empty array, so zero successful combinations is the `none` case. -/
def optimizeParameters (runB : List ℚ → Option PerformanceMetrics)
    (paramRanges : List (List ℚ)) : Option OptimizationResult :=
  let combinations := generateCombinations paramRanges
  let results := combinations.filterMap (fun combination =>
    (runB combination).map (fun performance => (combination, performance)))
  match results with
  | [] => none
  | firstResult :: rest =>
      let bestResult := reduceBestResult firstResult rest
      some { bestParams := bestResult.1
             bestPerformance := bestResult.2
             allResults := results }

/-!
### Risk-metric extensions (`backtestService.ts` lines 678–701)
-/

/-- The per-trade net return percentages
    (`returns = trades.map(trade => trade.netPnlPercentage)`). -/
def tradeNetReturns (trades : List Trade) : List ℚ :=
  trades.map (fun trade => trade.netPnlPercentage)

/-- Source `returns.sort((a, b) => a - b)`: ascending sort.  (`insertionSort` is
    extensionally the ascending reordering the source's comparator produces.) -/
def sortReturns (returns : List ℚ) : List ℚ :=
  List.insertionSort (fun a b => a ≤ b) returns

/-- Source `BacktestService.calculateVaR` (lines 678–686): the magnitude of the
    sorted return at rank `floor(n × (1 − confidenceLevel))`. -/
def calculateVaR (trades : List Trade) (confidenceLevel : ℚ) : ℚ :=
  if trades.length = 0 then 0
  else
    let returns := sortReturns (tradeNetReturns trades)
    let index := (⌊(returns.length : ℚ) * (1 - confidenceLevel)⌋).toNat
    |returns.getD index 0|

/-- Source `BacktestService.calculateExpectedShortfall` (lines 691–701): the
    magnitude of the mean of `returns.slice(0, cutoffIndex)` — the sorted
    returns strictly below the VaR rank; the return at the rank itself is
    excluded.  When `cutoffIndex = 0` the source divides `0` by `0` (NaN);
    here the `ℚ` junk value of that case is `0`. -/
def calculateExpectedShortfall (trades : List Trade) (confidenceLevel : ℚ) : ℚ :=
  if trades.length = 0 then 0
  else
    let returns := sortReturns (tradeNetReturns trades)
    let cutoffIndex := (⌊(returns.length : ℚ) * (1 - confidenceLevel)⌋).toNat
    let tailReturns := returns.take cutoffIndex
    |tailReturns.sum / (tailReturns.length : ℚ)|

/-!
### Specification-side definitions

The following definitions follow the SPEC's words, not the source; each is
compared against the corresponding source-derived definition above.
-/

/-- Trade-accounting invariant stated by the spec:
    `netPnl = pnl − entryFees − exitFees` and
    `netPnlPercentage = netPnl / (entryPrice × quantity) × 100`. -/
def tradeAccountingOk (t : Trade) : Prop :=
  t.netPnl = t.pnl - t.entryFees - t.exitFees ∧
  t.netPnlPercentage = t.netPnl / (t.entryPrice * t.quantity) * 100

instance (t : Trade) : Decidable (tradeAccountingOk t) := by
  unfold tradeAccountingOk; infer_instance

/-- Streak step as the SPEC claims it: like `streakStep`, except that a trade
    with `netPnl` exactly `0` "resets the current winning streak without
    incrementing the losing streak". -/
def claimedStreakStep (st : StreakState) (netPnl : ℚ) : StreakState :=
  if netPnl > 0 then streakStep st netPnl
  else if netPnl < 0 then streakStep st netPnl
  else
    let consecutiveWins :=
      if st.currentWins > 0 then st.consecutiveWins ++ [st.currentWins]
      else st.consecutiveWins
    { st with consecutiveWins := consecutiveWins, currentWins := 0 }

/-- Full streak scan under the SPEC's claimed zero handling. -/
def claimedStreakScan (trades : List Trade) : StreakState :=
  let st := trades.foldl (fun st trade => claimedStreakStep st trade.netPnl)
    { maxConsecutiveWins := 0, maxConsecutiveLosses := 0
      currentWins := 0, currentLosses := 0
      consecutiveWins := [], consecutiveLosses := [] }
  { st with
      consecutiveWins :=
        if st.currentWins > 0 then st.consecutiveWins ++ [st.currentWins]
        else st.consecutiveWins
      consecutiveLosses :=
        if st.currentLosses > 0 then st.consecutiveLosses ++ [st.currentLosses]
        else st.consecutiveLosses }

/-- Specification-style win/loss streak counters: a positive trade extends the
    win streak and clears the loss streak, a negative trade extends the loss
    streak and clears the win streak, a zero trade changes nothing (the
    amended behaviour). -/
def winLossStep (counters : ℕ × ℕ) (x : ℚ) : ℕ × ℕ :=
  if x > 0 then (counters.1 + 1, 0)
  else if x < 0 then (0, counters.2 + 1)
  else counters

/-- All intermediate streak-counter pairs over a run of net P&L values. -/
def streakCounters (xs : List ℚ) : List (ℕ × ℕ) :=
  List.scanl winLossStep (0, 0) xs

/-- Longest winning streak, specification style: the largest win counter ever
    attained. -/
def specMaxConsecutiveWins (xs : List ℚ) : ℕ :=
  ((streakCounters xs).map Prod.fst).foldl max 0

/-- Longest losing streak, specification style. -/
def specMaxConsecutiveLosses (xs : List ℚ) : ℕ :=
  ((streakCounters xs).map Prod.snd).foldl max 0

/-- Expected Shortfall as the SPEC claims it: the mean magnitude of all
    returns at or beyond (i.e. `≤`) the VaR cutoff value, where the cutoff is
    the sorted return at rank `floor(n × (1 − level))`. -/
def claimedExpectedShortfall (trades : List Trade) (confidenceLevel : ℚ) : ℚ :=
  if trades.length = 0 then 0
  else
    let returns := sortReturns (tradeNetReturns trades)
    let index := (⌊(returns.length : ℚ) * (1 - confidenceLevel)⌋).toNat
    let cutoff := returns.getD index 0
    let tailReturns := returns.filter (fun ret => ret ≤ cutoff)
    (tailReturns.map (fun ret => |ret|)).sum / (tailReturns.length : ℚ)

/-- Sortino ratio as the SPEC claims it: mean gross return divided by the
    standard deviation of the only-negative returns (deviation about THEIR
    mean), `0` when there are no negative returns. -/
noncomputable def claimedSortinoOf (trades : List Trade) : ℝ :=
  let negs := downsideReturnsOf trades
  if negs = [] then 0
  else
    let negMean := negs.sum / (negs.length : ℚ)
    let negStdevSq := (negs.map (fun ret => (ret - negMean) ^ 2)).sum / (negs.length : ℚ)
    (averageReturnOf trades : ℝ) / Real.sqrt ((negStdevSq : ℚ) : ℝ)

/-!
### Concrete fixtures

Small closed inputs used to evaluate the definitions above at concrete data.
-/

/-- A flat candle at price `p` and time `t`. -/
def mkCandle (t p : ℚ) : HistoricalCandle :=
  { openTime := t, open_ := p, high := p, low := p, close := p
    volume := 0, closeTime := t }

/-- A config with zero fees and zero slippage (so concrete P&L values are
    round numbers), 2% stop loss, 3% take profit, 10% position size. -/
def testConfig : BacktestConfig :=
  { initialBalance := 1000, positionSize := 10, stopLoss := 2, takeProfit := 3
    maxPositions := 1, slippage := 0, tradingFees := 0, makerFees := 0
    takerFees := 0, useMakerFees := false }

/-- A BUY signal with confidence 0.9. -/
def buySignal : StrategySignal :=
  { action := SignalAction.BUY, confidence := 0.9, reason := ("buy")
    price := 0, timestamp := 0 }

/-- A SELL signal with confidence 0.9. -/
def sellSignal : StrategySignal :=
  { action := SignalAction.SELL, confidence := 0.9, reason := ("sell")
    price := 0, timestamp := 0 }

/-- A HOLD signal with confidence 0. -/
def holdSignal : StrategySignal :=
  { action := SignalAction.HOLD, confidence := 0, reason := ("hold")
    price := 0, timestamp := 0 }

/-- Strategy with window 0 that buys on the first candle and sells on the
    third. -/
def buySellStrategy : Strategy :=
  { requiredCandles := 0
    analyzeSignal := fun historicalCandles =>
      if historicalCandles.length = 1 then buySignal
      else if historicalCandles.length = 3 then sellSignal
      else holdSignal }

/-- Strategy with window 0 that buys on the first candle and then holds. -/
def buyOnlyStrategy : Strategy :=
  { requiredCandles := 0
    analyzeSignal := fun historicalCandles =>
      if historicalCandles.length = 1 then buySignal else holdSignal }

/-- Three flat-drift candles: closes 100, 100.5, 101 at times 0, 1, 2 —
    never breaching the 2% stop loss or 3% take profit of `testConfig`. -/
def candles3 : List HistoricalCandle :=
  [mkCandle 0 100, mkCandle 1 (201/2), mkCandle 2 101]

/-- The position `buySellStrategy` opens on the first candle of `candles3`
    under `testConfig` (quantity 1 at entry price 100, no fees). -/
def posX : Trade :=
  { entryTime := 0, exitTime := 0, entryPrice := 100, exitPrice := 0
    type := SignalAction.BUY, quantity := 1, pnl := 0, pnlPercentage := 0
    entryFees := 0, exitFees := 0, entrySlippage := 0, exitSlippage := 0
    netPnl := 0, netPnlPercentage := 0, exitReason := ExitReason.SIGNAL }

/-- The single SIGNAL trade of `buySellStrategy` on `candles3`. -/
def tradeX : Trade :=
  { entryTime := 0, exitTime := 2, entryPrice := 100, exitPrice := 101
    type := SignalAction.BUY, quantity := 1, pnl := 1, pnlPercentage := 1
    entryFees := 0, exitFees := 0, entrySlippage := 0, exitSlippage := 0
    netPnl := 1, netPnlPercentage := 1, exitReason := ExitReason.SIGNAL }

/-- A trade whose four P&L fields all equal `q` (for feeding the performance
    analyzer and the risk metrics with chosen returns). -/
def mkPnlTrade (q : ℚ) : Trade :=
  { entryTime := 0, exitTime := 0, entryPrice := 1, exitPrice := 1
    type := SignalAction.BUY, quantity := 1, pnl := q, pnlPercentage := q
    entryFees := 0, exitFees := 0, entrySlippage := 0, exitSlippage := 0
    netPnl := q, netPnlPercentage := q, exitReason := ExitReason.SIGNAL }

/-- Net P&L sequence +1, 0, +1: a zero between two wins. -/
def winZeroWinTrades : List Trade :=
  [mkPnlTrade 1, mkPnlTrade 0, mkPnlTrade 1]

/-- Four trades with net return percentages −10, −4, 3, 5. -/
def esTrades : List Trade :=
  [mkPnlTrade (-10), mkPnlTrade (-4), mkPnlTrade 3, mkPnlTrade 5]

/-- Two losing trades with gross return percentages −1 and −7. -/
def sortinoTrades : List Trade :=
  [mkPnlTrade (-1), mkPnlTrade (-7)]

/-- Performance metrics whose fields are all zero except `netSharpeRatio`. -/
def constMetrics (q : ℚ) : PerformanceMetrics :=
  { totalReturn := 0, totalReturnPercentage := 0, winRate := 0
    totalTrades := 0, winningTrades := 0, losingTrades := 0
    averageWin := 0, averageLoss := 0, profitFactor := 0
    maxDrawdown := 0, maxDrawdownPercentage := 0, sharpeRatio := 0
    averageTradeDuration := 0, totalFees := 0, totalSlippage := 0
    netTotalReturn := 0, netTotalReturnPercentage := 0, netWinRate := 0
    netProfitFactor := 0, netMaxDrawdown := 0, netMaxDrawdownPercentage := 0
    netSharpeRatio := q, calmarRatio := 0, sortinoRatio := 0
    maxConsecutiveLosses := 0, maxConsecutiveWins := 0
    averageConsecutiveLosses := 0, averageConsecutiveWins := 0 }

/-- Oracle for the optimizer fixture: combination `[1]` scores Sharpe 1,
    combination `[2]` scores Sharpe 2, everything else fails. -/
def gridOracle (combination : List ℚ) : Option PerformanceMetrics :=
  if combination = [1] then some (constMetrics 1)
  else if combination = [2] then some (constMetrics 2)
  else none

/-- One-dimensional parameter range {1, 2} for the optimizer fixture. -/
def gridRanges : List (List ℚ) := [[1, 2]]

/-- The optimization result on `gridOracle`/`gridRanges`. -/
def gridResult : OptimizationResult :=
  { bestParams := [2], bestPerformance := constMetrics 2
    allResults := [([1], constMetrics 1), ([2], constMetrics 2)] }

/-- Simulator state holding the open position `posX` and a 1000 balance. -/
def stOpen : SimState :=
  { trades := [], position := some posX, balance := 1000 }

/-- Flat simulator state with a 1000 balance. -/
def stFlat : SimState :=
  { trades := [], position := none, balance := 1000 }

/-- Raw request config supplying every numeric field, with `stopLoss = 0`. -/
def rawStopLossZero : RawBacktestConfig :=
  { initialBalance := some 10000, positionSize := some 10, stopLoss := some 0
    takeProfit := some 3, maxPositions := some 1, slippage := some 0.1
    tradingFees := some 0.1, makerFees := some 0.075, takerFees := some 0.1
    useMakerFees := some false }

/-- Raw request config with `positionSize = 150` and no other field. -/
def rawPositionSize150 : RawBacktestConfig :=
  { initialBalance := none, positionSize := some 150, stopLoss := none
    takeProfit := none, maxPositions := none, slippage := none
    tradingFees := none, makerFees := none, takerFees := none
    useMakerFees := none }

/-- Raw request config whose every field is an explicitly supplied falsy
    value (`0` or `false`). -/
def rawAllZero : RawBacktestConfig :=
  { initialBalance := some 0, positionSize := some 0, stopLoss := some 0
    takeProfit := some 0, maxPositions := some 0, slippage := some 0
    tradingFees := some 0, makerFees := some 0, takerFees := some 0
    useMakerFees := some false }

/-!
### Supporting lemmas
-/

/-- Each trade closed by a SELL signal satisfies the accounting invariant by
    construction. -/
lemma closeBySignalTrade_ok (config : BacktestConfig) (p : Trade)
    (c : HistoricalCandle) : tradeAccountingOk (closeBySignalTrade config p c) :=
  ⟨rfl, rfl⟩

/-- Each stop-loss trade satisfies the accounting invariant by construction. -/
lemma closeByStopLossTrade_ok (config : BacktestConfig) (p : Trade)
    (c : HistoricalCandle) : tradeAccountingOk (closeByStopLossTrade config p c) :=
  ⟨rfl, rfl⟩

/-- Each take-profit trade satisfies the accounting invariant by construction. -/
lemma closeByTakeProfitTrade_ok (config : BacktestConfig) (p : Trade)
    (c : HistoricalCandle) : tradeAccountingOk (closeByTakeProfitTrade config p c) :=
  ⟨rfl, rfl⟩

/-- Each end-of-data trade satisfies the accounting invariant by construction. -/
lemma closeEndOfDataTrade_ok (config : BacktestConfig) (p : Trade)
    (c : HistoricalCandle) : tradeAccountingOk (closeEndOfDataTrade config p c) :=
  ⟨rfl, rfl⟩

/-- Signal handling appends only accounting-correct trades. -/
lemma handleSignal_trades_ok {config : BacktestConfig} {c : HistoricalCandle}
    {signal : StrategySignal} {st : SimState}
    (h : ∀ t ∈ st.trades, tradeAccountingOk t) :
    ∀ t ∈ (handleSignal config c signal st).trades, tradeAccountingOk t := by
  intro t ht
  unfold handleSignal at ht
  split at ht
  · split at ht
    · exact h t ht
    · simp only [List.mem_append, List.mem_singleton] at ht
      rcases ht with ht | rfl
      · exact h t ht
      · exact closeBySignalTrade_ok ..
    · exact h t ht
  · exact h t ht

/-- The stop-loss/take-profit check appends only accounting-correct trades. -/
lemma checkStopLossTakeProfit_trades_ok {config : BacktestConfig}
    {c : HistoricalCandle} {st : SimState}
    (h : ∀ t ∈ st.trades, tradeAccountingOk t) :
    ∀ t ∈ (checkStopLossTakeProfit config c st).trades, tradeAccountingOk t := by
  intro t ht
  unfold checkStopLossTakeProfit at ht
  split at ht
  · exact h t ht
  · dsimp only at ht
    split at ht
    · simp only [List.mem_append, List.mem_singleton] at ht
      rcases ht with ht | rfl
      · exact h t ht
      · exact closeByStopLossTrade_ok ..
    · split at ht
      · simp only [List.mem_append, List.mem_singleton] at ht
        rcases ht with ht | rfl
        · exact h t ht
        · exact closeByTakeProfitTrade_ok ..
      · exact h t ht

/-- One candle step appends only accounting-correct trades. -/
lemma stepCandle_trades_ok {config : BacktestConfig} {c : HistoricalCandle}
    {signal : StrategySignal} {st : SimState}
    (h : ∀ t ∈ st.trades, tradeAccountingOk t) :
    ∀ t ∈ (stepCandle config c signal st).trades, tradeAccountingOk t :=
  checkStopLossTakeProfit_trades_ok (handleSignal_trades_ok h)

/-- The whole candle loop appends only accounting-correct trades. -/
lemma runCandles_trades_ok {config : BacktestConfig} {strategy : Strategy}
    (rest : List HistoricalCandle) (processed : List HistoricalCandle)
    (st : SimState) (h : ∀ t ∈ st.trades, tradeAccountingOk t) :
    ∀ t ∈ (runCandles config strategy processed rest st).trades,
      tradeAccountingOk t := by
  induction rest generalizing processed st with
  | nil => exact h
  | cons c rest ih =>
      exact ih (processed ++ [c]) _ (stepCandle_trades_ok h)

/-- The end-of-data close appends only accounting-correct trades. -/
lemma finalizeRun_trades_ok {config : BacktestConfig}
    {candles : List HistoricalCandle} {st : SimState}
    (h : ∀ t ∈ st.trades, tradeAccountingOk t) :
    ∀ t ∈ (finalizeRun config candles st).trades, tradeAccountingOk t := by
  intro t ht
  unfold finalizeRun at ht
  split at ht
  · exact h t ht
  · split at ht
    · exact h t ht
    · simp only [List.mem_append, List.mem_singleton] at ht
      rcases ht with ht | rfl
      · exact h t ht
      · exact closeEndOfDataTrade_ok ..

/-- Signal handling on an open position either leaves the state unchanged or
    closes the position (it never opens a second one). -/
lemma handleSignal_of_some {config : BacktestConfig} {c : HistoricalCandle}
    {signal : StrategySignal} {st : SimState} {p : Trade}
    (hp : st.position = some p) :
    handleSignal config c signal st = st ∨
    (handleSignal config c signal st).position = none := by
  unfold handleSignal
  split
  · rw [hp]
    cases signal.action
    · exact Or.inl rfl
    · exact Or.inr rfl
    · exact Or.inl rfl
  · exact Or.inl rfl

/-- Signal handling while flat with a SELL signal is a no-op. -/
lemma handleSignal_flat_sell {config : BacktestConfig} {c : HistoricalCandle}
    {signal : StrategySignal} {st : SimState} (hp : st.position = none)
    (ha : signal.action = SignalAction.SELL) :
    handleSignal config c signal st = st := by
  unfold handleSignal
  split
  · rw [hp, ha]
  · rfl

/-- Signal handling on an open position with a signal that is not a
    qualifying SELL is a no-op. -/
lemma handleSignal_of_some_not_sell {config : BacktestConfig}
    {c : HistoricalCandle} {signal : StrategySignal} {st : SimState} {p : Trade}
    (hp : st.position = some p)
    (hs : ¬(signal.action = SignalAction.SELL ∧ signal.confidence ≥ 0.5)) :
    handleSignal config c signal st = st := by
  unfold handleSignal
  split
  · rename_i hcond
    rw [hp]
    cases ha : signal.action
    · rfl
    · exact absurd ⟨ha, hcond.2⟩ hs
    · rfl
  · rfl

/-- The stop-loss/take-profit check is a no-op while flat. -/
lemma checkStopLossTakeProfit_of_none {config : BacktestConfig}
    {c : HistoricalCandle} {st : SimState} (hp : st.position = none) :
    checkStopLossTakeProfit config c st = st := by
  unfold checkStopLossTakeProfit
  rw [hp]

/-- The stop-loss/take-profit check either leaves the state unchanged or
    closes the position. -/
lemma checkStopLossTakeProfit_cases (config : BacktestConfig)
    (c : HistoricalCandle) (st : SimState) :
    checkStopLossTakeProfit config c st = st ∨
    (checkStopLossTakeProfit config c st).position = none := by
  unfold checkStopLossTakeProfit
  split
  · exact Or.inl rfl
  · dsimp only
    split
    · exact Or.inr rfl
    · split
      · exact Or.inr rfl
      · exact Or.inl rfl

/-- The stop-loss/take-profit check appends at most one trade. -/
lemma checkStopLossTakeProfit_length (config : BacktestConfig)
    (c : HistoricalCandle) (st : SimState) :
    (checkStopLossTakeProfit config c st).trades.length ≤ st.trades.length + 1 := by
  unfold checkStopLossTakeProfit
  split
  · exact Nat.le_succ _
  · dsimp only
    split
    · simp
    · split
      · simp
      · exact Nat.le_succ _

/-- Signal handling either leaves the trade list unchanged, or appends exactly
    one trade and leaves the position closed. -/
lemma handleSignal_shape (config : BacktestConfig) (c : HistoricalCandle)
    (signal : StrategySignal) (st : SimState) :
    (handleSignal config c signal st).trades = st.trades ∨
    ((handleSignal config c signal st).trades.length = st.trades.length + 1 ∧
      (handleSignal config c signal st).position = none) := by
  unfold handleSignal
  split
  · split
    · exact Or.inl rfl
    · exact Or.inr (by simp)
    · exact Or.inl rfl
  · exact Or.inl rfl

/-- A position can only be open after the loop if there was at least one
    candle. -/
lemma loopState_position_some_ne_nil {config : BacktestConfig}
    {strategy : Strategy} {candles : List HistoricalCandle} {p : Trade}
    (hp : (loopState config strategy candles).position = some p) :
    candles ≠ [] := by
  intro hnil
  rw [hnil] at hp
  simp [loopState, runCandles] at hp

/-!
### Claim theorems
-/

/-- C1: every trade the execution simulator appends — whatever its exit reason
    (SIGNAL, STOP_LOSS, TAKE_PROFIT or END_OF_DATA) — satisfies
    `netPnl = pnl − entryFees − exitFees` and
    `netPnlPercentage = netPnl / (entryPrice × quantity) × 100`. -/
theorem c1_trade_accounting (config : BacktestConfig) (strategy : Strategy)
    (candles : List HistoricalCandle) :
    ∀ t ∈ (executeBacktest config strategy candles).trades, tradeAccountingOk t := by
  unfold executeBacktest loopState
  exact finalizeRun_trades_ok
    (runCandles_trades_ok _ _ _ (by intro t ht; simp at ht))

/-- Witness for C1: the single SIGNAL trade of the buy-then-sell run is in the
    output and satisfies the accounting invariant. -/
theorem c1_trade_accounting_witness :
    tradeX ∈ (executeBacktest testConfig buySellStrategy candles3).trades ∧
    tradeAccountingOk tradeX := by
  have hmem : tradeX ∈ (executeBacktest testConfig buySellStrategy candles3).trades := by
    norm_num +decide [executeBacktest, finalizeRun, loopState, runCandles,
      stepCandle, handleSignal, checkStopLossTakeProfit, openPosition,
      closeBySignalTrade, applySlippage, calculateSlippage, calculateFees,
      testConfig, buySellStrategy, candles3, mkCandle, buySignal, sellSignal,
      holdSignal, tradeX]
  exact ⟨hmem, c1_trade_accounting testConfig buySellStrategy candles3 tradeX hmem⟩

/-- C2: the simulator keeps at most one open position: its position state is a
    single `Option Trade`, a qualifying BUY while a position is open opens
    nothing (the step degenerates to the stop/take-profit check, and the
    position afterwards is still the old one or closed), and a SELL while flat
    closes nothing (the step is the identity). -/
theorem c2_single_position (config : BacktestConfig) (c : HistoricalCandle)
    (signal : StrategySignal) (st : SimState) (p : Trade) :
    (st.position = some p → signal.action = SignalAction.BUY →
        stepCandle config c signal st = checkStopLossTakeProfit config c st) ∧
    (st.position = some p →
        (stepCandle config c signal st).position = none ∨
        (stepCandle config c signal st).position = some p) ∧
    (st.position = none → signal.action = SignalAction.SELL →
        stepCandle config c signal st = st) := by
  refine ⟨fun hp ha => ?_, fun hp => ?_, fun hp ha => ?_⟩
  · have hh : handleSignal config c signal st = st := by
      unfold handleSignal
      split
      · rw [hp, ha]
      · rfl
    rw [stepCandle, hh]
  · rcases handleSignal_of_some hp with hh | hh
    · rcases checkStopLossTakeProfit_cases config c st with hc | hc
      · rw [stepCandle, hh, hc, hp]; exact Or.inr rfl
      · rw [stepCandle, hh]; exact Or.inl hc
    · rw [stepCandle, checkStopLossTakeProfit_of_none hh, hh]
      exact Or.inl rfl
  · rw [stepCandle, handleSignal_flat_sell hp ha,
      checkStopLossTakeProfit_of_none hp]

/-- Witness for C2: with an open position, a BUY step equals the bare
    stop/take-profit check; while flat, a SELL step is the identity. -/
theorem c2_single_position_witness :
    stepCandle testConfig (mkCandle 1 (201/2)) buySignal stOpen
      = checkStopLossTakeProfit testConfig (mkCandle 1 (201/2)) stOpen ∧
    stepCandle testConfig (mkCandle 1 (201/2)) sellSignal stFlat = stFlat :=
  ⟨(c2_single_position testConfig (mkCandle 1 (201/2)) buySignal stOpen posX).1
      rfl rfl,
   (c2_single_position testConfig (mkCandle 1 (201/2)) sellSignal stFlat posX).2.2
      rfl rfl⟩

/-- C3: the simulator never returns a dangling open position; if a position is
    still open after the per-candle loop, exactly one trade with exit reason
    END_OF_DATA and exit price the final candle's close is appended, and
    otherwise the loop's trade list is returned unchanged. -/
theorem c3_end_of_data (config : BacktestConfig) (strategy : Strategy)
    (candles : List HistoricalCandle) :
    (executeBacktest config strategy candles).position = none ∧
    (∀ p lastCandle, (loopState config strategy candles).position = some p →
        candles.getLast? = some lastCandle →
        (executeBacktest config strategy candles).trades
          = (loopState config strategy candles).trades
              ++ [closeEndOfDataTrade config p lastCandle] ∧
        (closeEndOfDataTrade config p lastCandle).exitReason
          = ExitReason.END_OF_DATA ∧
        (closeEndOfDataTrade config p lastCandle).exitPrice = lastCandle.close) ∧
    ((loopState config strategy candles).position = none →
        (executeBacktest config strategy candles).trades
          = (loopState config strategy candles).trades) := by
  refine ⟨?_, fun p lastCandle hp hl => ?_, fun hp => ?_⟩
  · unfold executeBacktest finalizeRun
    cases hp : (loopState config strategy candles).position with
    | none => exact hp
    | some p =>
        have hne : candles ≠ [] := loopState_position_some_ne_nil hp
        cases hl : candles.getLast? with
        | none => exact absurd (List.getLast?_eq_none_iff.mp hl) hne
        | some lastCandle => rfl
  · refine ⟨?_, rfl, rfl⟩
    unfold executeBacktest finalizeRun
    rw [hp, hl]
  · unfold executeBacktest finalizeRun
    rw [hp]

/-- Witness for C3: the buy-and-hold run on three candles ends flat, with the
    END_OF_DATA close of the surviving position appended. -/
theorem c3_end_of_data_witness :
    (executeBacktest testConfig buyOnlyStrategy candles3).position = none ∧
    (executeBacktest testConfig buyOnlyStrategy candles3).trades
      = (loopState testConfig buyOnlyStrategy candles3).trades
          ++ [closeEndOfDataTrade testConfig posX (mkCandle 2 101)] := by
  have hp : (loopState testConfig buyOnlyStrategy candles3).position = some posX := by
    norm_num +decide [loopState, runCandles, stepCandle, handleSignal,
      checkStopLossTakeProfit, openPosition, applySlippage, calculateSlippage,
      calculateFees, testConfig, buyOnlyStrategy, candles3, mkCandle, buySignal,
      holdSignal, posX]
  exact ⟨(c3_end_of_data testConfig buyOnlyStrategy candles3).1,
    ((c3_end_of_data testConfig buyOnlyStrategy candles3).2.1 posX
      (mkCandle 2 101) hp rfl).1⟩

/-- C4: while a position is open, every candle whose signal is not a
    qualifying SELL runs the stop-loss/take-profit check; the check compares
    the unslipped percentage change against the thresholds (`≤ −stopLoss`
    closes as STOP_LOSS, otherwise `≥ takeProfit` closes as TAKE_PROFIT), the
    exit fill used for pnl is the slipped close `close × (1 − slippage/100)`,
    and a single candle appends at most one trade. -/
theorem c4_stop_loss_take_profit (config : BacktestConfig)
    (c : HistoricalCandle) (signal : StrategySignal) (st : SimState) (p : Trade) :
    (st.position = some p →
      ¬(signal.action = SignalAction.SELL ∧ signal.confidence ≥ 0.5) →
        stepCandle config c signal st = checkStopLossTakeProfit config c st) ∧
    (st.position = some p →
      (c.close - p.entryPrice) / p.entryPrice * 100 ≤ -config.stopLoss →
        checkStopLossTakeProfit config c st
          = { trades := st.trades ++ [closeByStopLossTrade config p c]
              position := none
              balance := st.balance + (closeByStopLossTrade config p c).netPnl } ∧
        (closeByStopLossTrade config p c).exitReason = ExitReason.STOP_LOSS ∧
        (closeByStopLossTrade config p c).pnl
          = (c.close * (1 - config.slippage / 100) - p.entryPrice) * p.quantity) ∧
    (st.position = some p →
      ¬((c.close - p.entryPrice) / p.entryPrice * 100 ≤ -config.stopLoss) →
      (c.close - p.entryPrice) / p.entryPrice * 100 ≥ config.takeProfit →
        checkStopLossTakeProfit config c st
          = { trades := st.trades ++ [closeByTakeProfitTrade config p c]
              position := none
              balance := st.balance + (closeByTakeProfitTrade config p c).netPnl } ∧
        (closeByTakeProfitTrade config p c).exitReason = ExitReason.TAKE_PROFIT ∧
        (closeByTakeProfitTrade config p c).pnl
          = (c.close * (1 - config.slippage / 100) - p.entryPrice) * p.quantity) ∧
    (stepCandle config c signal st).trades.length ≤ st.trades.length + 1 := by
  refine ⟨fun hp hs => ?_, fun hp hsl => ⟨?_, rfl, ?_⟩,
    fun hp hnsl htp => ⟨?_, rfl, ?_⟩, ?_⟩
  · rw [stepCandle, handleSignal_of_some_not_sell hp hs]
  · unfold checkStopLossTakeProfit
    rw [hp]
    dsimp only
    rw [if_pos hsl]
  · unfold closeByStopLossTrade applySlippage calculateSlippage
    simp only [Bool.false_eq_true, if_false]
    ring
  · unfold checkStopLossTakeProfit
    rw [hp]
    dsimp only
    rw [if_neg hnsl, if_pos htp]
  · unfold closeByTakeProfitTrade applySlippage calculateSlippage
    simp only [Bool.false_eq_true, if_false]
    ring
  · rcases handleSignal_shape config c signal st with hh | ⟨hlen, hpos⟩
    · calc (stepCandle config c signal st).trades.length
          ≤ (handleSignal config c signal st).trades.length + 1 :=
            checkStopLossTakeProfit_length ..
        _ = st.trades.length + 1 := by rw [hh]
    · rw [stepCandle, checkStopLossTakeProfit_of_none hpos, hlen]

/-- Witness for C4: with the open position at entry 100, a candle closing at
    97 (−3%) triggers the stop-loss close and a candle closing at 104 (+4%)
    triggers the take-profit close. -/
theorem c4_stop_loss_take_profit_witness :
    checkStopLossTakeProfit testConfig (mkCandle 1 97) stOpen
      = { trades := stOpen.trades ++ [closeByStopLossTrade testConfig posX (mkCandle 1 97)]
          position := none
          balance := stOpen.balance
            + (closeByStopLossTrade testConfig posX (mkCandle 1 97)).netPnl } ∧
    checkStopLossTakeProfit testConfig (mkCandle 1 104) stOpen
      = { trades := stOpen.trades ++ [closeByTakeProfitTrade testConfig posX (mkCandle 1 104)]
          position := none
          balance := stOpen.balance
            + (closeByTakeProfitTrade testConfig posX (mkCandle 1 104)).netPnl } :=
  ⟨((c4_stop_loss_take_profit testConfig (mkCandle 1 97) holdSignal stOpen posX).2.1
      rfl (by norm_num [mkCandle, posX, testConfig])).1,
   ((c4_stop_loss_take_profit testConfig (mkCandle 1 104) holdSignal stOpen posX).2.2.1
      rfl (by norm_num [mkCandle, posX, testConfig])
      (by norm_num [mkCandle, posX, testConfig])).1⟩

/-- Counterexample to C5: a request config with `stopLoss = 0` is NOT
    rejected — the `/run` handler's `config.stopLoss || 2` replaces the falsy
    `0` with the default `2` before validation, so validation passes and the
    simulation proceeds. -/
theorem c5_counterexample :
    runHandlerValidation rawStopLossZero = none ∧
    (normalizeConfig rawStopLossZero).stopLoss = 2 := by
  constructor <;>
    norm_num [runHandlerValidation, validateRunConfig, normalizeConfig,
      orDefault, orDefaultBool, rawStopLossZero]

/-- C5 (amended): `positionSize = 150` is rejected by the `/run` handler's
    bound validation before any simulation, but `stopLoss = 0` is replaced by
    the default `2` rather than rejected, and only `/run` validates — the
    other endpoints (optimize, monte-carlo, walk-forward, risk-metrics,
    compare) apply the same defaulting with no bound check and forward
    `positionSize = 150` to the core. -/
theorem c5_validation_amended :
    (∀ raw : RawBacktestConfig, raw.positionSize = some 150 →
        (runHandlerValidation raw).isSome) ∧
    (∀ raw : RawBacktestConfig, raw.stopLoss = some 0 →
        (normalizeConfig raw).stopLoss = 2) ∧
    (∀ raw : RawBacktestConfig, raw.positionSize = some 150 →
        (optimizeHandlerConfig raw).positionSize = 150 ∧
        (monteCarloHandlerConfig raw).positionSize = 150 ∧
        (walkForwardHandlerConfig raw).positionSize = 150 ∧
        (riskMetricsHandlerConfig raw).positionSize = 150 ∧
        (compareHandlerConfig raw).positionSize = 150) := by
  refine ⟨fun raw h => ?_, fun raw h => ?_, fun raw h => ?_⟩
  · unfold runHandlerValidation validateRunConfig normalizeConfig orDefault
    rw [h]
    norm_num
    split
    · rfl
    · rfl
  · unfold normalizeConfig orDefault
    rw [h]
    norm_num
  · refine ⟨?_, ?_, ?_, ?_, ?_⟩ <;>
      · simp only [optimizeHandlerConfig, monteCarloHandlerConfig,
          walkForwardHandlerConfig, riskMetricsHandlerConfig,
          compareHandlerConfig]
        unfold normalizeConfig orDefault
        rw [h]
        norm_num

/-- Witness for the amended C5 at concrete raw configs. -/
theorem c5_validation_amended_witness :
    (runHandlerValidation rawPositionSize150).isSome ∧
    (normalizeConfig rawStopLossZero).stopLoss = 2 ∧
    (optimizeHandlerConfig rawPositionSize150).positionSize = 150 :=
  ⟨c5_validation_amended.1 rawPositionSize150 rfl,
   c5_validation_amended.2.1 rawStopLossZero rfl,
   (c5_validation_amended.2.2 rawPositionSize150 rfl).1⟩

/-- C10: on every backtest endpoint the config is normalized by the same
    defaulting block before validation or simulation; each numeric or boolean
    field that is missing or falsy (an explicit `0` or `false` included) is
    replaced by its fixed default, and the `/run` validation operates on the
    normalized config only, so a client-supplied zero is never itself
    bound-checked or used by the core. -/
theorem c10_config_defaulting :
    (∀ raw : RawBacktestConfig,
        runHandlerConfig raw = normalizeConfig raw ∧
        optimizeHandlerConfig raw = normalizeConfig raw ∧
        monteCarloHandlerConfig raw = normalizeConfig raw ∧
        walkForwardHandlerConfig raw = normalizeConfig raw ∧
        riskMetricsHandlerConfig raw = normalizeConfig raw ∧
        compareHandlerConfig raw = normalizeConfig raw) ∧
    (∀ raw : RawBacktestConfig,
        runHandlerValidation raw = validateRunConfig (normalizeConfig raw)) ∧
    (∀ raw : RawBacktestConfig,
        (raw.initialBalance = none ∨ raw.initialBalance = some 0 →
          (normalizeConfig raw).initialBalance = 10000) ∧
        (raw.positionSize = none ∨ raw.positionSize = some 0 →
          (normalizeConfig raw).positionSize = 10) ∧
        (raw.stopLoss = none ∨ raw.stopLoss = some 0 →
          (normalizeConfig raw).stopLoss = 2) ∧
        (raw.takeProfit = none ∨ raw.takeProfit = some 0 →
          (normalizeConfig raw).takeProfit = 3) ∧
        (raw.maxPositions = none ∨ raw.maxPositions = some 0 →
          (normalizeConfig raw).maxPositions = 1) ∧
        (raw.slippage = none ∨ raw.slippage = some 0 →
          (normalizeConfig raw).slippage = 0.1) ∧
        (raw.tradingFees = none ∨ raw.tradingFees = some 0 →
          (normalizeConfig raw).tradingFees = 0.1) ∧
        (raw.makerFees = none ∨ raw.makerFees = some 0 →
          (normalizeConfig raw).makerFees = 0.075) ∧
        (raw.takerFees = none ∨ raw.takerFees = some 0 →
          (normalizeConfig raw).takerFees = 0.1) ∧
        (raw.useMakerFees = none ∨ raw.useMakerFees = some false →
          (normalizeConfig raw).useMakerFees = false)) := by
  refine ⟨fun raw => ⟨rfl, rfl, rfl, rfl, rfl, rfl⟩, fun raw => rfl, fun raw => ?_⟩
  refine ⟨?_, ?_, ?_, ?_, ?_, ?_, ?_, ?_, ?_, ?_⟩ <;>
    · rintro (h | h) <;> simp [normalizeConfig, orDefault, orDefaultBool, h]

/-- Witness for C10: a config whose every field is an explicit falsy value
    normalizes to the full default config. -/
theorem c10_config_defaulting_witness :
    (normalizeConfig rawAllZero).initialBalance = 10000 ∧
    (normalizeConfig rawAllZero).positionSize = 10 ∧
    (normalizeConfig rawAllZero).stopLoss = 2 ∧
    (normalizeConfig rawAllZero).takeProfit = 3 ∧
    (normalizeConfig rawAllZero).maxPositions = 1 ∧
    (normalizeConfig rawAllZero).slippage = 0.1 ∧
    (normalizeConfig rawAllZero).tradingFees = 0.1 ∧
    (normalizeConfig rawAllZero).makerFees = 0.075 ∧
    (normalizeConfig rawAllZero).takerFees = 0.1 ∧
    (normalizeConfig rawAllZero).useMakerFees = false :=
  ⟨((c10_config_defaulting.2.2 rawAllZero).1) (Or.inr rfl),
   ((c10_config_defaulting.2.2 rawAllZero).2.1) (Or.inr rfl),
   ((c10_config_defaulting.2.2 rawAllZero).2.2.1) (Or.inr rfl),
   ((c10_config_defaulting.2.2 rawAllZero).2.2.2.1) (Or.inr rfl),
   ((c10_config_defaulting.2.2 rawAllZero).2.2.2.2.1) (Or.inr rfl),
   ((c10_config_defaulting.2.2 rawAllZero).2.2.2.2.2.1) (Or.inr rfl),
   ((c10_config_defaulting.2.2 rawAllZero).2.2.2.2.2.2.1) (Or.inr rfl),
   ((c10_config_defaulting.2.2 rawAllZero).2.2.2.2.2.2.2.1) (Or.inr rfl),
   ((c10_config_defaulting.2.2 rawAllZero).2.2.2.2.2.2.2.2.1) (Or.inr rfl),
   ((c10_config_defaulting.2.2 rawAllZero).2.2.2.2.2.2.2.2.2) (Or.inr rfl)⟩

/-- Folding `max` from any seed splits off the seed. -/
lemma foldl_max_eq (l : List ℕ) (b : ℕ) :
    l.foldl max b = max b (l.foldl max 0) := by
  induction l generalizing b with
  | nil => simp
  | cons a t ih =>
      rw [List.foldl_cons, List.foldl_cons, ih (max b a), ih (max 0 a)]
      simp [Nat.max_assoc]

/-- Folding `max 0` over a cons splits off the head. -/
lemma foldl_max_cons (a : ℕ) (l : List ℕ) :
    (a :: l).foldl max 0 = max a (l.foldl max 0) := by
  rw [List.foldl_cons, foldl_max_eq]
  simp

/-- A scan always starts with its initial accumulator. -/
lemma scanl_eq_cons {α β : Type} (f : α → β → α) (b : α) (l : List β) :
    ∃ tl, List.scanl f b l = b :: tl := by
  cases l with
  | nil => exact ⟨[], rfl⟩
  | cons a t => exact ⟨_, rfl⟩

/-- The max over the first components of a scan dominates the initial first
    component. -/
lemma fst_le_scanl_max {β : Type} (f : ℕ × ℕ → β → ℕ × ℕ) (b : ℕ × ℕ)
    (l : List β) : b.1 ≤ ((List.scanl f b l).map Prod.fst).foldl max 0 := by
  obtain ⟨tl, htl⟩ := scanl_eq_cons f b l
  rw [htl, List.map_cons, foldl_max_cons]
  exact le_max_left ..

/-- The max over the second components of a scan dominates the initial second
    component. -/
lemma snd_le_scanl_max {β : Type} (f : ℕ × ℕ → β → ℕ × ℕ) (b : ℕ × ℕ)
    (l : List β) : b.2 ≤ ((List.scanl f b l).map Prod.snd).foldl max 0 := by
  obtain ⟨tl, htl⟩ := scanl_eq_cons f b l
  rw [htl, List.map_cons, foldl_max_cons]
  exact le_max_left ..

/-- The streak fold of the performance analyzer tracks, in its max fields,
    exactly the running maxima of the specification-style streak counters
    (in which a zero net P&L is a no-op). -/
lemma streakStep_fold_spec (xs : List ℚ) (st : StreakState)
    (hw : st.currentWins ≤ st.maxConsecutiveWins)
    (hl : st.currentLosses ≤ st.maxConsecutiveLosses) :
    (xs.foldl streakStep st).maxConsecutiveWins
      = max st.maxConsecutiveWins
          (((List.scanl winLossStep (st.currentWins, st.currentLosses) xs).map
              Prod.fst).foldl max 0) ∧
    (xs.foldl streakStep st).maxConsecutiveLosses
      = max st.maxConsecutiveLosses
          (((List.scanl winLossStep (st.currentWins, st.currentLosses) xs).map
              Prod.snd).foldl max 0) := by
  induction xs generalizing st with
  | nil =>
      constructor
      · simp only [List.foldl_nil, List.scanl_nil, List.map_cons, List.map_nil,
          List.foldl_cons, Nat.zero_max]
        exact (Nat.max_eq_left hw).symm
      · simp only [List.foldl_nil, List.scanl_nil, List.map_cons, List.map_nil,
          List.foldl_cons, Nat.zero_max]
        exact (Nat.max_eq_left hl).symm
  | cons x t ih =>
      rw [List.foldl_cons, List.scanl_cons, List.singleton_append]
      by_cases hx : x > 0
      · have hwl : winLossStep (st.currentWins, st.currentLosses) x
            = (st.currentWins + 1, 0) := by
          unfold winLossStep
          rw [if_pos hx]
        have hcw : (streakStep st x).currentWins = st.currentWins + 1 := by
          unfold streakStep; rw [if_pos hx]
        have hcl : (streakStep st x).currentLosses = 0 := by
          unfold streakStep; rw [if_pos hx]
        have hmw : (streakStep st x).maxConsecutiveWins
            = max st.maxConsecutiveWins (st.currentWins + 1) := by
          unfold streakStep
          rw [if_pos hx]
          dsimp only
          by_cases hgt : st.currentWins + 1 > st.maxConsecutiveWins
          · rw [if_pos hgt, Nat.max_eq_right (by omega)]
          · rw [if_neg hgt, Nat.max_eq_left (by omega)]
        have hml : (streakStep st x).maxConsecutiveLosses
            = st.maxConsecutiveLosses := by
          unfold streakStep; rw [if_pos hx]
        obtain ⟨ihw, ihl⟩ := ih (streakStep st x)
          (by rw [hcw, hmw]; exact le_max_right ..)
          (by rw [hcl]; exact Nat.zero_le _)
        rw [hcw, hcl] at ihw ihl
        rw [hwl, List.map_cons, List.map_cons, foldl_max_cons, foldl_max_cons,
          ihw, ihl, hmw, hml]
        have hM := fst_le_scanl_max winLossStep (st.currentWins + 1, 0) t
        constructor
        · rw [Nat.max_eq_right (le_trans (Nat.le_succ _) hM), Nat.max_assoc,
            Nat.max_eq_right hM]
        · rw [← Nat.max_assoc, Nat.max_eq_left hl]
      · by_cases hx' : x < 0
        · have hwl : winLossStep (st.currentWins, st.currentLosses) x
              = (0, st.currentLosses + 1) := by
            unfold winLossStep
            rw [if_neg hx, if_pos hx']
          have hcw : (streakStep st x).currentWins = 0 := by
            unfold streakStep; rw [if_neg hx, if_pos hx']
          have hcl : (streakStep st x).currentLosses = st.currentLosses + 1 := by
            unfold streakStep; rw [if_neg hx, if_pos hx']
          have hmw : (streakStep st x).maxConsecutiveWins
              = st.maxConsecutiveWins := by
            unfold streakStep; rw [if_neg hx, if_pos hx']
          have hml : (streakStep st x).maxConsecutiveLosses
              = max st.maxConsecutiveLosses (st.currentLosses + 1) := by
            unfold streakStep
            rw [if_neg hx, if_pos hx']
            dsimp only
            by_cases hgt : st.currentLosses + 1 > st.maxConsecutiveLosses
            · rw [if_pos hgt, Nat.max_eq_right (by omega)]
            · rw [if_neg hgt, Nat.max_eq_left (by omega)]
          obtain ⟨ihw, ihl⟩ := ih (streakStep st x)
            (by rw [hcw]; exact Nat.zero_le _)
            (by rw [hcl, hml]; exact le_max_right ..)
          rw [hcw, hcl] at ihw ihl
          rw [hwl, List.map_cons, List.map_cons, foldl_max_cons, foldl_max_cons,
            ihw, ihl, hmw, hml]
          have hM := snd_le_scanl_max winLossStep (0, st.currentLosses + 1) t
          constructor
          · rw [← Nat.max_assoc, Nat.max_eq_left hw]
          · rw [Nat.max_eq_right (le_trans (Nat.le_succ _) hM), Nat.max_assoc,
              Nat.max_eq_right hM]
        · have hwl : winLossStep (st.currentWins, st.currentLosses) x
              = (st.currentWins, st.currentLosses) := by
            unfold winLossStep
            rw [if_neg hx, if_neg hx']
          have hstep : streakStep st x = st := by
            unfold streakStep; rw [if_neg hx, if_neg hx']
          obtain ⟨ihw, ihl⟩ := ih st hw hl
          rw [hstep, hwl, List.map_cons, List.map_cons, foldl_max_cons,
            foldl_max_cons, ihw, ihl]
          constructor
          · rw [Nat.max_eq_right (fst_le_scanl_max winLossStep
              (st.currentWins, st.currentLosses) t)]
          · rw [Nat.max_eq_right (snd_le_scanl_max winLossStep
              (st.currentWins, st.currentLosses) t)]

/-- Counterexample to C6: on net P&L sequence +1, 0, +1 the analyzer reports
    a longest winning streak of 2 — the zero-P&L trade matches neither the
    `netPnl > 0` nor the `netPnl < 0` branch and so does NOT reset the
    winning streak — whereas the claimed semantics (zero resets the winning
    streak) yields 1. -/
theorem c6_zero_pnl_counterexample :
    (streakScan winZeroWinTrades).maxConsecutiveWins = 2 ∧
    (claimedStreakScan winZeroWinTrades).maxConsecutiveWins = 1 ∧
    (streakScan winZeroWinTrades).maxConsecutiveWins
      ≠ (claimedStreakScan winZeroWinTrades).maxConsecutiveWins := by
  refine ⟨by decide, by decide, by decide⟩

/-- C6 (amended): streaks are computed by scanning the trade list in
    chronological order, resetting the opposite counter on sign flip, and a
    trade whose netPnl is exactly 0 leaves BOTH streak counters unchanged —
    it neither extends nor resets either streak.  The analyzer's reported
    maxima equal the maxima of the specification-style counters. -/
theorem c6_streaks_amended (trades : List Trade) :
    (streakScan trades).maxConsecutiveWins
      = specMaxConsecutiveWins (trades.map (fun t => t.netPnl)) ∧
    (streakScan trades).maxConsecutiveLosses
      = specMaxConsecutiveLosses (trades.map (fun t => t.netPnl)) := by
  have hfold : trades.foldl (fun st trade => streakStep st trade.netPnl)
      { maxConsecutiveWins := 0, maxConsecutiveLosses := 0
        currentWins := 0, currentLosses := 0
        consecutiveWins := [], consecutiveLosses := [] }
      = (trades.map (fun t => t.netPnl)).foldl streakStep
        { maxConsecutiveWins := 0, maxConsecutiveLosses := 0
          currentWins := 0, currentLosses := 0
          consecutiveWins := [], consecutiveLosses := [] } := by
    rw [List.foldl_map]
  obtain ⟨hwinSpec, hlossSpec⟩ := streakStep_fold_spec
    (trades.map (fun t => t.netPnl))
    { maxConsecutiveWins := 0, maxConsecutiveLosses := 0
      currentWins := 0, currentLosses := 0
      consecutiveWins := [], consecutiveLosses := [] }
    (Nat.le_refl 0) (Nat.le_refl 0)
  constructor
  · unfold streakScan
    dsimp only
    rw [hfold, hwinSpec]
    simp [specMaxConsecutiveWins, streakCounters]
  · unfold streakScan
    dsimp only
    rw [hfold, hlossSpec]
    simp [specMaxConsecutiveLosses, streakCounters]

/-- The JavaScript `reduce` of the optimizer returns an element of the result
    list whose `netSharpeRatio` dominates every element's. -/
lemma reduceBestResult_spec (first : List ℚ × PerformanceMetrics)
    (rest : List (List ℚ × PerformanceMetrics)) :
    reduceBestResult first rest ∈ first :: rest ∧
    ∀ r ∈ first :: rest,
      r.2.netSharpeRatio ≤ (reduceBestResult first rest).2.netSharpeRatio := by
  induction rest generalizing first with
  | nil =>
      refine ⟨by simp [reduceBestResult], ?_⟩
      intro r hr
      simp only [List.mem_singleton] at hr
      subst hr
      exact le_refl _
  | cons b t ih =>
      have hstep : reduceBestResult first (b :: t)
          = reduceBestResult
              (if b.2.netSharpeRatio > first.2.netSharpeRatio then b else first) t :=
        rfl
      by_cases hbf : b.2.netSharpeRatio > first.2.netSharpeRatio
      · obtain ⟨hmem, hub⟩ := ih b
        rw [hstep, if_pos hbf]
        refine ⟨?_, ?_⟩
        · rcases List.mem_cons.mp hmem with heq | hmem'
          · rw [heq]
            exact List.mem_cons_of_mem _ (List.mem_cons_self ..)
          · exact List.mem_cons_of_mem _ (List.mem_cons_of_mem _ hmem')
        · intro r hr
          rcases List.mem_cons.mp hr with heq | hr'
          · rw [heq]
            exact le_trans (le_of_lt hbf) (hub b (List.mem_cons_self ..))
          · exact hub r hr'
      · obtain ⟨hmem, hub⟩ := ih first
        rw [hstep, if_neg hbf]
        refine ⟨?_, ?_⟩
        · rcases List.mem_cons.mp hmem with heq | hmem'
          · rw [heq]
            exact List.mem_cons_self ..
          · exact List.mem_cons_of_mem _ (List.mem_cons_of_mem _ hmem')
        · intro r hr
          rcases List.mem_cons.mp hr with heq | hr'
          · rw [heq]
            exact hub first (List.mem_cons_self ..)
          · rcases List.mem_cons.mp hr' with heq | hr''
            · rw [heq]
              exact le_trans (le_of_not_lt hbf) (hub first (List.mem_cons_self ..))
            · exact hub r (List.mem_cons_of_mem _ hr'')

/-- C7: whenever the grid search succeeds, `allResults` is exactly the list
    of successful combinations, the reported best pair is one of them, and its
    `netSharpeRatio` is the maximum over `allResults` (it is attained and
    dominates every entry). -/
theorem c7_grid_search_best (runB : List ℚ → Option PerformanceMetrics)
    (paramRanges : List (List ℚ)) (res : OptimizationResult)
    (h : optimizeParameters runB paramRanges = some res) :
    res.allResults = (generateCombinations paramRanges).filterMap
      (fun combination =>
        (runB combination).map (fun performance => (combination, performance))) ∧
    (res.bestParams, res.bestPerformance) ∈ res.allResults ∧
    ∀ r ∈ res.allResults,
      r.2.netSharpeRatio ≤ res.bestPerformance.netSharpeRatio := by
  unfold optimizeParameters at h
  dsimp only at h
  split at h
  · exact absurd h (by simp)
  · rename_i firstResult rest hres
    rw [Option.some.injEq] at h
    subst h
    dsimp only
    obtain ⟨hmem, hub⟩ := reduceBestResult_spec firstResult rest
    refine ⟨rfl, ?_, ?_⟩
    · rw [hres]
      rw [Prod.mk.eta]
      exact hmem
    · intro r hr
      rw [hres] at hr
      exact hub r hr

/-- Witness for C7 on the two-combination grid fixture. -/
theorem c7_grid_search_best_witness :
    (gridResult.bestParams, gridResult.bestPerformance) ∈ gridResult.allResults ∧
    ∀ r ∈ gridResult.allResults,
      r.2.netSharpeRatio ≤ gridResult.bestPerformance.netSharpeRatio := by
  have h := c7_grid_search_best gridOracle gridRanges gridResult (by decide)
  exact ⟨h.2.1, h.2.2⟩

/-- Counterexample to C8: on sorted net returns [−10, −4, 3, 5] at confidence
    level 3/4 the cutoff rank is `floor(4 × 1/4) = 1`, the VaR cutoff value is
    the −4 at rank 1, and the source's `slice(0, 1)` tail is `[−10]` — it
    EXCLUDES the return at the cutoff — so the code returns 10 while the
    claimed "mean magnitude of all returns at or beyond the cutoff"
    (`[−10, −4]`) is 7. -/
theorem c8_expected_shortfall_counterexample :
    calculateExpectedShortfall esTrades (3/4) = 10 ∧
    claimedExpectedShortfall esTrades (3/4) = 7 ∧
    calculateExpectedShortfall esTrades (3/4)
      ≠ claimedExpectedShortfall esTrades (3/4) := by
  have h1 : calculateExpectedShortfall esTrades (3/4) = 10 := by
    norm_num +decide [calculateExpectedShortfall, sortReturns, tradeNetReturns,
      esTrades, mkPnlTrade, List.insertionSort, List.orderedInsert]
  have h2 : claimedExpectedShortfall esTrades (3/4) = 7 := by
    norm_num +decide [claimedExpectedShortfall, sortReturns, tradeNetReturns,
      esTrades, mkPnlTrade, List.insertionSort, List.orderedInsert]
  exact ⟨h1, h2, by rw [h1, h2]; norm_num⟩

/-- C8 (amended): when the cutoff rank `k = floor(n × (1 − level))` is at
    least 1, the Expected Shortfall is the magnitude of the mean of the
    first `k` sorted-ascending net returns — the returns strictly below the
    VaR rank, each of which is `≤` the return at the rank; the return at the
    rank itself is excluded. -/
theorem c8_expected_shortfall_amended (trades : List Trade)
    (confidenceLevel : ℚ) (k : ℕ) (hne : trades ≠ [])
    (hk : k = (⌊((sortReturns (tradeNetReturns trades)).length : ℚ)
        * (1 - confidenceLevel)⌋).toNat)
    (_h1 : 1 ≤ k) (h2 : k < (sortReturns (tradeNetReturns trades)).length) :
    calculateExpectedShortfall trades confidenceLevel
      = |((sortReturns (tradeNetReturns trades)).take k).sum / (k : ℚ)| ∧
    ∀ x ∈ (sortReturns (tradeNetReturns trades)).take k,
      x ≤ (sortReturns (tradeNetReturns trades)).getD k 0 := by
  constructor
  · unfold calculateExpectedShortfall
    rw [if_neg (by simpa using hne)]
    dsimp only
    rw [← hk, List.length_take, Nat.min_eq_left (le_of_lt h2)]
  · intro x hx
    set l := sortReturns (tradeNetReturns trades) with hl
    have hsorted : List.Sorted (fun a b : ℚ => a ≤ b) l :=
      List.sorted_insertionSort _ (tradeNetReturns trades)
    obtain ⟨i, hi, hgx⟩ := List.getElem_of_mem hx
    have hik : i < k := lt_of_lt_of_le hi (by simp [List.length_take])
    have hilen : i < l.length := lt_of_lt_of_le hi
      (by rw [List.length_take]; exact min_le_right ..)
    have hx_eq : x = l[i] := by
      rw [← hgx, List.getElem_take]
    have hcut : l.getD k 0 = l[k] := List.getD_eq_getElem l 0 h2
    rw [hx_eq, hcut]
    exact List.pairwise_iff_getElem.mp hsorted i k hilen h2 hik

/-- Witness for the amended C8 at the four-trade fixture with level 3/4. -/
theorem c8_expected_shortfall_amended_witness :
    calculateExpectedShortfall esTrades (3/4)
      = |((sortReturns (tradeNetReturns esTrades)).take 1).sum / (1 : ℚ)| := by
  have h := c8_expected_shortfall_amended esTrades (3/4) 1
    (by decide)
    (by norm_num +decide [sortReturns, tradeNetReturns, esTrades, mkPnlTrade,
      List.insertionSort, List.orderedInsert])
    (le_refl 1)
    (by norm_num +decide [sortReturns, tradeNetReturns, esTrades, mkPnlTrade,
      List.insertionSort, List.orderedInsert])
  exact h.1

/-- Counterexample to C9: on gross returns −1 and −7 the code's denominator is
    `sqrt((1 + 49)/2) = 5` (root-mean-square of the negative returns about
    zero), so it reports `−4/5`, while the claimed denominator — the standard
    deviation of the negative returns about their mean −4 — is
    `sqrt((9 + 9)/2) = 3`, giving `−4/3`. -/
theorem c9_sortino_counterexample :
    sortinoRatioOf sortinoTrades = -4/5 ∧
    claimedSortinoOf sortinoTrades = -4/3 ∧
    sortinoRatioOf sortinoTrades ≠ claimedSortinoOf sortinoTrades := by
  have hdv : downsideVarianceOf sortinoTrades = 25 := by
    norm_num +decide [downsideVarianceOf, downsideReturnsOf, tradeReturns,
      sortinoTrades, mkPnlTrade]
  have havg : averageReturnOf sortinoTrades = -4 := by
    norm_num +decide [averageReturnOf, tradeReturns, sortinoTrades, mkPnlTrade]
  have hnegs : downsideReturnsOf sortinoTrades = [-1, -7] := by
    norm_num +decide [downsideReturnsOf, tradeReturns, sortinoTrades, mkPnlTrade]
  have h25 : Real.sqrt 25 = 5 := by
    rw [show (25 : ℝ) = 5 ^ 2 by norm_num, Real.sqrt_sq (by norm_num : (0:ℝ) ≤ 5)]
  have h9 : Real.sqrt 9 = 3 := by
    rw [show (9 : ℝ) = 3 ^ 2 by norm_num, Real.sqrt_sq (by norm_num : (0:ℝ) ≤ 3)]
  have h1 : sortinoRatioOf sortinoTrades = -4/5 := by
    unfold sortinoRatioOf
    rw [hdv, havg, if_pos (by norm_num : (25:ℚ) > 0)]
    rw [show (((25:ℚ)):ℝ) = 25 by norm_num, h25]
    norm_num
  have h2 : claimedSortinoOf sortinoTrades = -4/3 := by
    unfold claimedSortinoOf
    rw [hnegs, havg, if_neg (by simp : ¬([(-1 : ℚ), -7] = []))]
    dsimp only
    norm_num [List.sum_cons, List.sum_nil]
    rw [h9]
    norm_num
  exact ⟨h1, h2, by rw [h1, h2]; norm_num⟩

/-- C9 (amended): the Sortino ratio equals the mean gross return percentage
    divided by the square root of the mean of the SQUARES of the negative
    returns (the downside deviation about zero, not the standard deviation of
    the negative returns), and is 0 exactly when there are no negative
    returns. -/
theorem c9_sortino_amended (trades : List Trade) :
    sortinoRatioOf trades
      = if downsideReturnsOf trades = [] then 0
        else (averageReturnOf trades : ℝ)
          / Real.sqrt (((((downsideReturnsOf trades).map (fun ret => ret ^ 2)).sum
              / ((downsideReturnsOf trades).length : ℚ) : ℚ) : ℝ)) := by
  by_cases h : downsideReturnsOf trades = []
  · rw [if_pos h]
    unfold sortinoRatioOf downsideVarianceOf
    rw [h]
    simp
  · rw [if_neg h]
    have hlen : 0 < (downsideReturnsOf trades).length := List.length_pos.mpr h
    have hpos : downsideVarianceOf trades > 0 := by
      unfold downsideVarianceOf
      rw [if_pos hlen]
      apply div_pos
      · apply List.sum_pos
        · intro y hy
          obtain ⟨r, hr, rfl⟩ := List.mem_map.mp hy
          have hrneg : r < 0 := by
            have := (List.mem_filter.mp hr).2
            exact of_decide_eq_true this
          have : 0 < r * r := mul_pos_of_neg_of_neg hrneg hrneg
          rwa [← pow_two] at this
        · simpa using h
      · exact_mod_cast hlen
    unfold sortinoRatioOf
    rw [if_pos hpos]
    unfold downsideVarianceOf
    rw [if_pos hlen]

end BinanceBot
